import Mathlib

/-!
Shallow embedding of the escrow-backed game engine of the `arcium_mxe`
Solana program (files `programs/arcium_mxe/src/lib.rs`, `state.rs`,
`error.rs`): a commit-reveal coinflip and a turn-based tic-tac-toe, both
holding wagers in escrow on the game account and settling via claim/cancel
instructions.

Modelling conventions:
- `Pubkey` is abstracted to `Nat`; 32-byte values (commitments, nonces)
  are `List Nat` of bytes.
- `u64` quantities are `Nat`; `checked_mul` is modelled with an explicit
  `< 2^64` bound, matching Rust's `u64::checked_mul`.
- The Keccak-256 hash called by `reveal_choice` is external to the
  repository (`solana_program::keccak::hash`), so it is a parameter
  `keccak : List Nat → List Nat` of the reveal operation.
- Each Anchor instruction handler becomes a pure function returning
  `Except ArciumMxeError _`; an error result models the transaction
  aborting with no mutation (Anchor discards all changes on `Err`).
- The game account's lamport balance is carried in a `lamports` field.
  Account initialisation deposits the rent-exempt minimum in addition to
  the escrowed wager, so `create_game` takes a `rent : Nat` parameter and
  sets `lamports := rent + wager`; the escrow custody proper is
  `lamports - rent`.  Fund-moving instructions return the amount credited
  to the caller alongside the updated game record.
-/

namespace ArciumMxe

/-- Ledger addresses, abstracted. -/
abbrev Pubkey := Nat

/-- Byte strings (each entry a byte value). -/
abbrev Bytes := List Nat

/-- Minimum wager: 0.001 SOL (`const MIN_WAGER: u64 = 1_000_000`). -/
def MIN_WAGER : Nat := 1000000

/-- One past the largest `u64` value. -/
def U64_MOD : Nat := 2 ^ 64

/-- Rust's `u64::checked_mul`: `none` exactly when the product overflows. -/
def checkedMul (a b : Nat) : Option Nat :=
  if a * b < U64_MOD then some (a * b) else none

/-- Equality of instruction results is decidable (used to evaluate
concrete scenarios). -/
instance {ε α : Type} [DecidableEq ε] [DecidableEq α] :
    DecidableEq (Except ε α) :=
  fun x y =>
    match x, y with
    | .ok a, .ok b =>
        if h : a = b then .isTrue (by rw [h]) else .isFalse (by simp [h])
    | .ok _, .error _ => .isFalse (by simp)
    | .error _, .ok _ => .isFalse (by simp)
    | .error e, .error f =>
        if h : e = f then .isTrue (by rw [h]) else .isFalse (by simp [h])

/-- The program's error enum (`error.rs`, `ArciumMxeError`). -/
inductive ArciumMxeError where
  | InvalidWager
  | GameFull
  | CannotJoinOwnGame
  | InvalidGameState
  | InvalidCommitment
  | NotGameCreator
  | GameAlreadyStarted
  | NotParticipant
  | NotGameWinner
  | InvalidChoice
  | AlreadyRevealed
  | AlreadyClaimed
  | NotYourTurn
  | InvalidPosition
  | PositionOccupied
  | GameNotInProgress
  | GameNotFinished
  | NotPlayer
  | NotAuthorized
  | Overflow
  | InsufficientFunds
deriving DecidableEq, Repr

/-- Coinflip game state enum (`state.rs`, `GameState`). -/
inductive GameState where
  | WaitingForPlayer
  | WaitingForReveal
  | Completed
  | Cancelled
deriving DecidableEq, Repr

/-- Coinflip game account (`state.rs`, `CoinflipGame`), together with the
account's lamport balance. -/
structure CoinflipGame where
  channel : Pubkey
  player_a : Pubkey
  player_b : Option Pubkey
  wager : Nat
  commitment_a : Bytes
  commitment_b : Option Bytes
  choice_a : Option Nat
  nonce_a : Option Bytes
  choice_b : Option Nat
  nonce_b : Option Bytes
  winner : Option Pubkey
  state : GameState
  created_at : Int
  claimed : Bool
  bump : Nat
  lamports : Nat
deriving DecidableEq, Repr

namespace CoinflipGame

/-- `CoinflipGame::is_waiting_for_player`. -/
def is_waiting_for_player (g : CoinflipGame) : Prop :=
  g.state = GameState.WaitingForPlayer

instance (g : CoinflipGame) : Decidable g.is_waiting_for_player := by
  unfold is_waiting_for_player; infer_instance

/-- `CoinflipGame::is_waiting_for_reveal`. -/
def is_waiting_for_reveal (g : CoinflipGame) : Prop :=
  g.state = GameState.WaitingForReveal

instance (g : CoinflipGame) : Decidable g.is_waiting_for_reveal := by
  unfold is_waiting_for_reveal; infer_instance

/-- `CoinflipGame::is_completed`. -/
def is_completed (g : CoinflipGame) : Prop :=
  g.state = GameState.Completed

instance (g : CoinflipGame) : Decidable g.is_completed := by
  unfold is_completed; infer_instance

/-- `CoinflipGame::compute_winner`: both choices and player B present;
equal choices mean player A (creator) wins, different choices mean
player B (joiner) wins. -/
def compute_winner (g : CoinflipGame) : Option Pubkey :=
  match g.choice_a, g.choice_b, g.player_b with
  | some a, some b, some pb => if a = b then some g.player_a else some pb
  | _, _, _ => none

end CoinflipGame

open ArciumMxeError GameState

/-- `create_game` (lib.rs): requires `wager ≥ MIN_WAGER`, escrows the
creator's wager on the fresh account (which also receives its `rent`
deposit at init). -/
def create_game (channel player_a : Pubkey) (wager : Nat) (commitment : Bytes)
    (now : Int) (rent bump : Nat) : Except ArciumMxeError CoinflipGame :=
  if wager ≥ MIN_WAGER then
    .ok { channel := channel
          player_a := player_a
          player_b := none
          wager := wager
          commitment_a := commitment
          commitment_b := none
          choice_a := none
          nonce_a := none
          choice_b := none
          nonce_b := none
          winner := none
          state := WaitingForPlayer
          created_at := now
          claimed := false
          bump := bump
          lamports := rent + wager }
  else .error InvalidWager

/-- `join_game` (lib.rs): requires state `WaitingForPlayer` and a joiner
distinct from the creator; escrows the matching wager and stores the
joiner's commitment. -/
def join_game (g : CoinflipGame) (player_b : Pubkey) (commitment : Bytes) :
    Except ArciumMxeError CoinflipGame :=
  if ¬ g.is_waiting_for_player then .error InvalidGameState
  else if g.player_a = player_b then .error CannotJoinOwnGame
  else .ok { g with
    player_b := some player_b
    commitment_b := some commitment
    state := WaitingForReveal
    lamports := g.lamports + g.wager }

/-- Common tail of `reveal_choice` (lib.rs, lines 158-166): once both
choices are recorded, compute the winner and move to `Completed`. -/
def reveal_finish (g1 : CoinflipGame) : Except ArciumMxeError CoinflipGame :=
  if g1.choice_a.isSome ∧ g1.choice_b.isSome then
    .ok { g1 with winner := g1.compute_winner, state := Completed }
  else .ok g1

/-- `reveal_choice` (lib.rs): verifies `keccak(choice ‖ nonce)` against the
caller's stored commitment, records the choice and nonce, and (via
`reveal_finish`, the handler's common tail) completes the game once both
sides have revealed.  `keccak` is the external Keccak-256 hash. -/
def reveal_choice (keccak : Bytes → Bytes) (g : CoinflipGame)
    (revealer : Pubkey) (choice : Nat) (nonce : Bytes) :
    Except ArciumMxeError CoinflipGame :=
  if ¬ g.is_waiting_for_reveal then .error InvalidGameState
  else if ¬ choice ≤ 1 then .error InvalidChoice
  else
    let computed_hash := keccak (choice :: nonce)
    if revealer = g.player_a then
      if g.choice_a.isSome then .error AlreadyRevealed
      else if ¬ computed_hash = g.commitment_a then .error InvalidCommitment
      else reveal_finish
        { g with choice_a := some choice, nonce_a := some nonce }
    else if some revealer = g.player_b then
      if g.choice_b.isSome then .error AlreadyRevealed
      else if ¬ some computed_hash = g.commitment_b then .error InvalidCommitment
      else reveal_finish
        { g with choice_b := some choice, nonce_b := some nonce }
    else .error NotParticipant

/-- `claim_winnings` (lib.rs): requires state `Completed`, caller equal to
the stored winner and `claimed = false`; pays out `wager * 2` (with
`checked_mul` overflow check) and sets `claimed`.  Returns the updated
record and the amount credited to the claimer. -/
def claim_winnings (g : CoinflipGame) (claimer : Pubkey) :
    Except ArciumMxeError (CoinflipGame × Nat) :=
  if ¬ g.is_completed then .error InvalidGameState
  else if ¬ g.winner = some claimer then .error NotGameWinner
  else if g.claimed then .error AlreadyClaimed
  else
    match checkedMul g.wager 2 with
    | none => .error Overflow
    | some total_pot =>
        .ok ({ g with lamports := g.lamports - total_pot, claimed := true },
             total_pot)

/-- `cancel_game` (lib.rs): requires caller equal to the creator and state
`WaitingForPlayer`; refunds the creator's wager and marks the game
`Cancelled`. -/
def cancel_game (g : CoinflipGame) (creator : Pubkey) :
    Except ArciumMxeError (CoinflipGame × Nat) :=
  if ¬ g.player_a = creator then .error NotGameCreator
  else if ¬ g.is_waiting_for_player then .error GameAlreadyStarted
  else
    .ok ({ g with lamports := g.lamports - g.wager, state := Cancelled },
         g.wager)

/-- Tic Tac Toe game state enum (`state.rs`, `TicTacToeState`). -/
inductive TicTacToeState where
  | WaitingForPlayer
  | PlayerXTurn
  | PlayerOTurn
  | XWins
  | OWins
  | Draw
  | Cancelled
deriving DecidableEq, Repr

/-- Win patterns (`state.rs`, `WIN_PATTERNS`): three rows, three columns,
two diagonals, in source order. -/
def WIN_PATTERNS : List (Nat × Nat × Nat) :=
  [(0, 1, 2), (3, 4, 5), (6, 7, 8),
   (0, 3, 6), (1, 4, 7), (2, 5, 8),
   (0, 4, 8), (2, 4, 6)]

/-- Tic Tac Toe game account (`state.rs`, `TicTacToeGame`), together with
the account's lamport balance.  `board` is a 9-cell list, 0 = empty,
1 = X, 2 = O. -/
structure TicTacToeGame where
  channel : Pubkey
  player_x : Pubkey
  player_o : Option Pubkey
  wager : Nat
  board : List Nat
  move_count : Nat
  winner : Option Pubkey
  state : TicTacToeState
  created_at : Int
  claimed : Bool
  bump : Nat
  lamports : Nat
deriving DecidableEq, Repr

namespace TicTacToeGame

/-- `TicTacToeGame::is_waiting_for_player`. -/
def is_waiting_for_player (g : TicTacToeGame) : Prop :=
  g.state = TicTacToeState.WaitingForPlayer

instance (g : TicTacToeGame) : Decidable g.is_waiting_for_player := by
  unfold is_waiting_for_player; infer_instance

/-- `TicTacToeGame::is_players_turn`: the caller owns the marker of the
current turn state. -/
def is_players_turn (g : TicTacToeGame) (player : Pubkey) : Prop :=
  match g.state with
  | TicTacToeState.PlayerXTurn => player = g.player_x
  | TicTacToeState.PlayerOTurn => g.player_o = some player
  | _ => False

instance (g : TicTacToeGame) (p : Pubkey) : Decidable (g.is_players_turn p) := by
  unfold is_players_turn
  rcases g.state <;> infer_instance

/-- `TicTacToeGame::is_in_progress`. -/
def is_in_progress (g : TicTacToeGame) : Prop :=
  g.state = TicTacToeState.PlayerXTurn ∨ g.state = TicTacToeState.PlayerOTurn

instance (g : TicTacToeGame) : Decidable g.is_in_progress := by
  unfold is_in_progress; infer_instance

/-- `TicTacToeGame::is_finished`. -/
def is_finished (g : TicTacToeGame) : Prop :=
  g.state = TicTacToeState.XWins ∨ g.state = TicTacToeState.OWins ∨
    g.state = TicTacToeState.Draw

instance (g : TicTacToeGame) : Decidable g.is_finished := by
  unfold is_finished; infer_instance

/-- `TicTacToeGame::is_valid_move`: in-range position on an empty cell. -/
def is_valid_move (g : TicTacToeGame) (position : Nat) : Prop :=
  position < 9 ∧ g.board.getD position 0 = 0

instance (g : TicTacToeGame) (p : Nat) : Decidable (g.is_valid_move p) := by
  unfold is_valid_move; infer_instance

/-- `TicTacToeGame::check_winner`: scan `WIN_PATTERNS` in order; the first
line with three equal non-empty cells yields its marker. -/
def check_winner (board : List Nat) : Option Nat :=
  WIN_PATTERNS.findSome? fun t =>
    if board.getD t.1 0 ≠ 0 ∧ board.getD t.1 0 = board.getD t.2.1 0 ∧
        board.getD t.2.1 0 = board.getD t.2.2 0 then
      some (board.getD t.1 0)
    else none

/-- `TicTacToeGame::is_board_full`: `move_count >= 9`. -/
def is_board_full (g : TicTacToeGame) : Prop := g.move_count ≥ 9

instance (g : TicTacToeGame) : Decidable g.is_board_full := by
  unfold is_board_full; infer_instance

/-- `TicTacToeGame::current_marker`: 1 for X's turn, 2 for O's turn,
0 otherwise. -/
def current_marker (g : TicTacToeGame) : Nat :=
  match g.state with
  | TicTacToeState.PlayerXTurn => 1
  | TicTacToeState.PlayerOTurn => 2
  | _ => 0

end TicTacToeGame

open TicTacToeState

/-- `create_ttt_game` (lib.rs): requires `wager ≥ MIN_WAGER`; initialises
an empty board and escrows the creator's wager (the account also receives
its `rent` deposit at init). -/
def create_ttt_game (channel player_x : Pubkey) (wager : Nat) (now : Int)
    (rent bump : Nat) : Except ArciumMxeError TicTacToeGame :=
  if wager ≥ MIN_WAGER then
    .ok { channel := channel
          player_x := player_x
          player_o := none
          wager := wager
          board := List.replicate 9 0
          move_count := 0
          winner := none
          state := WaitingForPlayer
          created_at := now
          claimed := false
          bump := bump
          lamports := rent + wager }
  else .error InvalidWager

/-- `join_ttt_game` (lib.rs): requires state `WaitingForPlayer` and a
joiner distinct from the creator; escrows the matching wager; X moves
first. -/
def join_ttt_game (g : TicTacToeGame) (player_o : Pubkey) :
    Except ArciumMxeError TicTacToeGame :=
  if ¬ g.is_waiting_for_player then .error InvalidGameState
  else if g.player_x = player_o then .error CannotJoinOwnGame
  else .ok { g with
    player_o := some player_o
    state := PlayerXTurn
    lamports := g.lamports + g.wager }

/-- `make_move` (lib.rs): requires an in-progress game, the caller's turn,
an in-range empty position; places the current marker, increments
`move_count`, then in order: winner check over the eight lines, full-board
draw check, turn flip. -/
def make_move (g : TicTacToeGame) (player : Pubkey) (position : Nat) :
    Except ArciumMxeError TicTacToeGame :=
  if ¬ g.is_in_progress then .error GameNotInProgress
  else if ¬ g.is_players_turn player then .error NotYourTurn
  else if ¬ position < 9 then .error InvalidPosition
  else if ¬ g.is_valid_move position then .error PositionOccupied
  else
    let marker := g.current_marker
    let g1 := { g with
      board := g.board.set position marker
      move_count := g.move_count + 1 }
    match TicTacToeGame.check_winner g1.board with
    | some winner_marker =>
        if winner_marker = 1 then
          .ok { g1 with winner := some g1.player_x, state := XWins }
        else
          .ok { g1 with winner := g1.player_o, state := OWins }
    | none =>
        if g1.is_board_full then .ok { g1 with state := Draw }
        else
          .ok { g1 with
            state := if g1.state = PlayerXTurn then PlayerOTurn
                     else PlayerXTurn }

/-- `claim_ttt_winnings` (lib.rs): requires a finished game, `claimed =
false` and a participant caller.  On `XWins`/`OWins` only the winner may
claim; the pot is `wager * 2` via `checked_mul` and `claimed` is set.  On
`Draw` the caller is refunded one wager, and `claimed` is set only when
the account's remaining lamports drop below one wager.  Returns the
updated record and the amount credited to the claimer. -/
def claim_ttt_winnings (g : TicTacToeGame) (claimer : Pubkey) :
    Except ArciumMxeError (TicTacToeGame × Nat) :=
  if ¬ g.is_finished then .error GameNotFinished
  else if g.claimed then .error AlreadyClaimed
  else
    let is_player_x := claimer = g.player_x
    let is_player_o := g.player_o = some claimer
    if ¬ (is_player_x ∨ is_player_o) then .error NotPlayer
    else
      match g.state with
      | XWins =>
          if ¬ is_player_x then .error NotGameWinner
          else
            match checkedMul g.wager 2 with
            | none => .error Overflow
            | some total_pot =>
                .ok ({ g with lamports := g.lamports - total_pot,
                              claimed := true }, total_pot)
      | OWins =>
          if ¬ is_player_o then .error NotGameWinner
          else
            match checkedMul g.wager 2 with
            | none => .error Overflow
            | some total_pot =>
                .ok ({ g with lamports := g.lamports - total_pot,
                              claimed := true }, total_pot)
      | Draw =>
          let game_lamports := g.lamports - g.wager
          .ok ({ g with lamports := game_lamports,
                        claimed := if game_lamports < g.wager then true
                                   else g.claimed }, g.wager)
      | _ => .error GameNotFinished

/-- `cancel_ttt_game` (lib.rs): requires caller equal to the creator and
state `WaitingForPlayer`; refunds the creator's wager and marks the game
`Cancelled`. -/
def cancel_ttt_game (g : TicTacToeGame) (creator : Pubkey) :
    Except ArciumMxeError (TicTacToeGame × Nat) :=
  if ¬ g.player_x = creator then .error NotGameCreator
  else if ¬ g.is_waiting_for_player then .error GameAlreadyStarted
  else
    .ok ({ g with lamports := g.lamports - g.wager, state := Cancelled },
         g.wager)

/-! ### Derived definitions used by the verification -/

/-- Run a sequence of `claim_winnings` attempts: each attempt that succeeds
continues from the updated record, each attempt that fails leaves the
record as it was (the transaction aborts).  Returns the final record and
the per-attempt results (amount paid, or the error). -/
def runClaims (g : CoinflipGame) :
    List Pubkey → CoinflipGame × List (Except ArciumMxeError Nat)
  | [] => (g, [])
  | c :: cs =>
    match claim_winnings g c with
    | .ok (g1, amt) =>
        let r := runClaims g1 cs
        (r.1, .ok amt :: r.2)
    | .error e =>
        let r := runClaims g cs
        (r.1, .error e :: r.2)

/-- Number of successful results in a claim-attempt run. -/
def okCount (rs : List (Except ArciumMxeError Nat)) : Nat :=
  (rs.filter (fun r => r.isOk)).length

/-- Run a sequence of `make_move` calls, stopping at the first error. -/
def runMoves (g : TicTacToeGame) :
    List (Pubkey × Nat) → Except ArciumMxeError TicTacToeGame
  | [] => .ok g
  | (p, pos) :: ms =>
    match make_move g p pos with
    | .ok g1 => runMoves g1 ms
    | .error e => .error e

/-- Board `board` holds three markers `m` on one of the eight win lines
(`WIN_PATTERNS`), with `m` non-empty.  This is the spec's formulation of
"any of the eight win lines holds three equal non-empty markers". -/
def has_win_line (board : List Nat) (m : Nat) : Prop :=
  ∃ t ∈ WIN_PATTERNS, m ≠ 0 ∧ board.getD t.1 0 = m ∧
    board.getD t.2.1 0 = m ∧ board.getD t.2.2 0 = m

instance (board : List Nat) (m : Nat) : Decidable (has_win_line board m) := by
  unfold has_win_line; infer_instance

/-! ### Concrete data used by witnesses and counterexamples -/

/-- A hash function instance for concrete runs (the engine is generic in
the hash). -/
def kecId : Bytes → Bytes := fun d => d

/-- An all-zero 32-byte nonce. -/
def n0 : Bytes := List.replicate 32 0

/-- A freshly created coinflip game: creator 1, wager `MIN_WAGER`,
commitment `kecId (0 ‖ n0)`, no rent. -/
def cfG1 : CoinflipGame :=
  { channel := 0
    player_a := 1
    player_b := none
    wager := MIN_WAGER
    commitment_a := 0 :: n0
    commitment_b := none
    choice_a := none
    nonce_a := none
    choice_b := none
    nonce_b := none
    winner := none
    state := GameState.WaitingForPlayer
    created_at := 0
    claimed := false
    bump := 0
    lamports := MIN_WAGER }

/-- `cfG1` after player 2 joins committing to choice 1. -/
def cfG2 : CoinflipGame :=
  { cfG1 with
    player_b := some 2
    commitment_b := some (1 :: n0)
    state := GameState.WaitingForReveal
    lamports := 2 * MIN_WAGER }

/-- `cfG2` after the creator reveals (0, n0). -/
def cfG3 : CoinflipGame :=
  { cfG2 with choice_a := some 0, nonce_a := some n0 }

/-- `cfG3` after the joiner reveals (1, n0): completed, winner player 2. -/
def cfG4 : CoinflipGame :=
  { cfG3 with
    choice_b := some 1
    nonce_b := some n0
    winner := some 2
    state := GameState.Completed }

/-! ### C2: coinflip winner rule -/

/-- C2: for every coinflip game in which both players have revealed
(choices and the joiner present), for all `(choice_a, choice_b) ∈ {0,1}²`
and distinct players, the computed winner equals the creator (`player_a`)
iff the two choices are equal, and equals the joiner (`player_b`) iff they
differ. -/
theorem coinflip_winner_rule (g : CoinflipGame) (a b : Nat) (pb : Pubkey)
    (ha : g.choice_a = some a) (hb : g.choice_b = some b)
    (hpb : g.player_b = some pb) (ha1 : a ≤ 1) (hb1 : b ≤ 1)
    (hne : pb ≠ g.player_a) :
    (g.compute_winner = some g.player_a ↔ a = b) ∧
    (g.compute_winner = some pb ↔ a ≠ b) := by
  unfold CoinflipGame.compute_winner
  rw [ha, hb, hpb]
  by_cases hab : a = b
  · simp [hab, hne.symm]
  · simp [hab, hne]

/-- Witness for C2 at a concrete completed game (`cfG4`: choices 0 and 1,
players 1 and 2): the winner is the joiner. -/
theorem coinflip_winner_rule_witness :
    cfG4.choice_a = some 0 ∧ cfG4.choice_b = some 1 ∧
      cfG4.player_b = some 2 ∧ (2 : Pubkey) ≠ cfG4.player_a ∧
      ((cfG4.compute_winner = some cfG4.player_a ↔ (0 : Nat) = 1) ∧
        (cfG4.compute_winner = some 2 ↔ (0 : Nat) ≠ 1)) :=
  ⟨rfl, rfl, rfl, by decide,
    coinflip_winner_rule cfG4 0 1 2 rfl rfl rfl (by decide) (by decide)
      (by decide)⟩

/-! ### C3: reveal commitment verification -/

/-- `reveal_finish` always succeeds: the post-verification tail of
`reveal_choice` cannot fail. -/
theorem reveal_finish_ok (g : CoinflipGame) : ∃ g1, reveal_finish g = .ok g1 := by
  unfold reveal_finish
  by_cases h : g.choice_a.isSome ∧ g.choice_b.isSome
  · exact ⟨_, if_pos h⟩
  · exact ⟨_, if_neg h⟩

/-- C3: in state `WaitingForReveal`, for a participant who has not yet
revealed and a choice in {0,1}, the reveal succeeds iff the hash of the
choice byte followed by the nonce equals (as a byte string, i.e.
byte-for-byte) that party's stored commitment `c`; on any mismatch it
fails with `InvalidCommitment` (the transaction aborts, so nothing is
recorded). -/
theorem reveal_commitment_check (keccak : Bytes → Bytes) (g : CoinflipGame)
    (revealer : Pubkey) (choice : Nat) (nonce : Bytes) (c : Bytes)
    (hstate : g.is_waiting_for_reveal) (hchoice : choice ≤ 1)
    (hstored :
      (revealer = g.player_a ∧ g.choice_a = none ∧ c = g.commitment_a) ∨
      (¬ revealer = g.player_a ∧ g.player_b = some revealer ∧
        g.choice_b = none ∧ some c = g.commitment_b)) :
    ((∃ g1, reveal_choice keccak g revealer choice nonce = .ok g1) ↔
      keccak (choice :: nonce) = c) ∧
    (¬ keccak (choice :: nonce) = c →
      reveal_choice keccak g revealer choice nonce = .error InvalidCommitment) := by
  unfold reveal_choice
  simp only [hstate, hchoice, not_true_eq_false, not_false_eq_true,
    if_false, if_true]
  rcases hstored with ⟨h1, h2, h3⟩ | ⟨h0, h1, h2, h3⟩
  · simp only [h1, h2, ← h3, if_true, Option.isSome_none, Bool.false_eq_true,
      if_false]
    by_cases hk : keccak (choice :: nonce) = c
    · simp [hk, reveal_finish_ok]
    · simp [hk]
  · simp only [h0, ← h1, h2, ← h3, if_false, if_true, Option.isSome_none,
      Bool.false_eq_true, Option.some.injEq]
    by_cases hk : keccak (choice :: nonce) = c
    · simp [hk, reveal_finish_ok]
    · simp [hk]

/-- Witness for C3: the joiner of the concrete game `cfG3` reveals
`(1, n0)`, matching the stored commitment `1 ‖ n0` under the identity
hash; the reveal succeeds, and the iff instantiates. -/
theorem reveal_commitment_check_witness :
    cfG3.is_waiting_for_reveal ∧
    ((∃ g1, reveal_choice kecId cfG3 2 1 n0 = .ok g1) ↔
      kecId (1 :: n0) = 1 :: n0) :=
  ⟨by decide,
    (reveal_commitment_check kecId cfG3 2 1 n0 (1 :: n0) (by decide)
      (by decide) (by decide)).1⟩

/-- A freshly created tic-tac-toe game: creator 1, wager `MIN_WAGER`, no
rent. -/
def tttG1 : TicTacToeGame :=
  { channel := 0
    player_x := 1
    player_o := none
    wager := MIN_WAGER
    board := List.replicate 9 0
    move_count := 0
    winner := none
    state := TicTacToeState.WaitingForPlayer
    created_at := 0
    claimed := false
    bump := 0
    lamports := MIN_WAGER }

/-- `tttG1` after player 2 joins as O. -/
def tttG2 : TicTacToeGame :=
  { tttG1 with
    player_o := some 2
    state := TicTacToeState.PlayerXTurn
    lamports := 2 * MIN_WAGER }

/-- `cfG1` after the creator cancels it. -/
def cfG1c : CoinflipGame :=
  { cfG1 with state := GameState.Cancelled, lamports := 0 }

/-! ### C7: moving out of turn -/

/-- C7: a `make_move` call on an in-progress game by a caller who is not
the player whose turn the current state assigns fails with `NotYourTurn`;
the error return models the transaction aborting, so board, `move_count`,
`state` and `winner` are all left exactly as they were. -/
theorem make_move_not_your_turn (g : TicTacToeGame) (player : Pubkey)
    (position : Nat) (hprog : g.is_in_progress)
    (hturn : ¬ g.is_players_turn player) :
    make_move g player position = .error NotYourTurn := by
  unfold make_move
  simp [hprog, hturn]

/-- Witness for C7: in the concrete joined game, player O (2) attempts a
move while it is X's turn. -/
theorem make_move_not_your_turn_witness :
    tttG2.is_in_progress ∧ ¬ tttG2.is_players_turn 2 ∧
      make_move tttG2 2 0 = .error NotYourTurn :=
  ⟨by decide, by decide, make_move_not_your_turn tttG2 2 0 (by decide)
    (by decide)⟩

/-! ### C8: cancellation of a coinflip game -/

/-- C8: `cancel_game` succeeds iff the caller is the creator and the state
is `WaitingForPlayer`; on success it pays the creator exactly the escrowed
wager (the account balance drops by exactly `wager`), sets the state to
`Cancelled`, and every subsequent `join_game` attempt fails with
`InvalidGameState`. -/
theorem cancel_game_spec (g : CoinflipGame) (caller pb : Pubkey)
    (comm : Bytes) :
    ((∃ r, cancel_game g caller = .ok r) ↔
      g.player_a = caller ∧ g.state = GameState.WaitingForPlayer) ∧
    (∀ g1 amt, cancel_game g caller = .ok (g1, amt) →
      amt = g.wager ∧ g1.lamports = g.lamports - g.wager ∧
      g1.state = GameState.Cancelled ∧
      join_game g1 pb comm = .error InvalidGameState) := by
  unfold cancel_game
  by_cases h1 : g.player_a = caller
  · by_cases h2 : g.is_waiting_for_player
    · constructor
      · simp [h1, h2]
        exact h2
      · intro g1 amt h
        simp [h1, h2] at h
        obtain ⟨hg1, hamt⟩ := h
        subst hg1
        refine ⟨hamt.symm, rfl, rfl, ?_⟩
        unfold join_game
        simp [CoinflipGame.is_waiting_for_player]
    · constructor
      · simp [h1, h2]
        exact fun h => h2 h
      · intro g1 amt h
        simp [h1, h2] at h
  · constructor
    · simp [h1]
    · intro g1 amt h
      simp [h1] at h

/-- Witness for C8: the creator (1) cancels the freshly created game
`cfG1`, which evaluates to the refunded, `Cancelled` record `cfG1c`; the
refund is the full wager and the cancelled game rejects a join. -/
theorem cancel_game_spec_witness :
    MIN_WAGER = cfG1.wager ∧ cfG1c.lamports = cfG1.lamports - cfG1.wager ∧
      cfG1c.state = GameState.Cancelled ∧
      join_game cfG1c 2 (1 :: n0) = .error InvalidGameState :=
  (cancel_game_spec cfG1 1 2 (1 :: n0)).2 cfG1c MIN_WAGER (by decide)

/-! ### C9: overflow-checked pot computation -/

/-- C9: on a single-winner outcome the total pot is `wager * 2`, computed
with `checked_mul` before any fund movement.  If `wager * 2` does not fit
in a `u64` the claim fails with `Overflow` (the error return models the
aborted transaction: no funds move and `claimed` stays false), for both
the coinflip claim and the tic-tac-toe win claims; and every successful
claim pays exactly `wager * 2`, which is then strictly below `2^64` — the
multiplication never wraps. -/
theorem claim_overflow_check
    (g : CoinflipGame) (c : Pubkey) (t : TicTacToeGame) (d : Pubkey)
    (hg : g.is_completed) (hw : g.winner = some c) (hcl : g.claimed = false)
    (hov : ¬ g.wager * 2 < U64_MOD)
    (ht : t.state = TicTacToeState.XWins ∨ t.state = TicTacToeState.OWins)
    (htcl : t.claimed = false)
    (htd : (t.state = TicTacToeState.XWins → d = t.player_x) ∧
           (t.state = TicTacToeState.OWins → t.player_o = some d))
    (hovt : ¬ t.wager * 2 < U64_MOD) :
    claim_winnings g c = .error Overflow ∧
    claim_ttt_winnings t d = .error Overflow ∧
    (∀ g2 c2 g3 amt, claim_winnings g2 c2 = .ok (g3, amt) →
      amt = g2.wager * 2 ∧ g2.wager * 2 < U64_MOD) ∧
    (∀ t2 d2 t3 amt,
      t2.state = TicTacToeState.XWins ∨ t2.state = TicTacToeState.OWins →
      claim_ttt_winnings t2 d2 = .ok (t3, amt) →
      amt = t2.wager * 2 ∧ t2.wager * 2 < U64_MOD) := by
  refine ⟨?_, ?_, ?_, ?_⟩
  · unfold claim_winnings checkedMul
    simp [hg, hw, hcl, hov]
  · unfold claim_ttt_winnings checkedMul
    rcases ht with ht | ht
    · have hd := htd.1 ht
      simp [TicTacToeGame.is_finished, ht, htcl, hd, hov, hovt]
    · have hd := htd.2 ht
      simp [TicTacToeGame.is_finished, ht, htcl, hd, hov, hovt]
  · intro g2 c2 g3 amt h
    unfold claim_winnings at h
    split_ifs at h
    rcases hm : checkedMul g2.wager 2 with _ | pot
    · rw [hm] at h; cases h
    · rw [hm] at h
      unfold checkedMul at hm
      split_ifs at hm with hlt
      · cases hm
        cases h
        exact ⟨rfl, hlt⟩
  · intro t2 d2 t3 amt ht2 h
    unfold claim_ttt_winnings at h
    split_ifs at h
    rcases ht2 with ht2 | ht2 <;> rw [ht2] at h <;> dsimp only at h <;>
      split_ifs at h <;>
      · rcases hm : checkedMul t2.wager 2 with _ | pot
        · rw [hm] at h; cases h
        · rw [hm] at h
          unfold checkedMul at hm
          split_ifs at hm with hlt
          · cases hm
            cases h
            exact ⟨rfl, hlt⟩

/-- A completed coinflip game whose wager `2^63` does not fit doubled in a
`u64`: winner 1, unclaimed. -/
def cfOv : CoinflipGame :=
  { cfG4 with winner := some 1, wager := 2 ^ 63, lamports := 2 ^ 64 }

/-- An `XWins` tic-tac-toe game whose wager `2^63` does not fit doubled in
a `u64`: winner X = 1, unclaimed. -/
def tttOv : TicTacToeGame :=
  { tttG2 with
    state := TicTacToeState.XWins
    winner := some 1
    wager := 2 ^ 63
    lamports := 2 ^ 64 }

/-- Witness for C9: a completed coinflip game and a finished tic-tac-toe
game, both with wager `2^63` (which does not fit doubled), yield
`Overflow`. -/
theorem claim_overflow_check_witness :
    claim_winnings cfOv 1 = .error Overflow ∧
    claim_ttt_winnings tttOv 1 = .error Overflow := by
  have h := claim_overflow_check cfOv 1 tttOv 1 (by decide) (by decide)
    (by decide) (by decide) (by decide) (by decide) (by decide) (by decide)
  exact ⟨h.1, h.2.1⟩

/-! ### C6: make_move outcome determination -/

/-- A marker returned by `check_winner` sits, three times and non-empty,
on one of the eight win lines. -/
theorem check_winner_some_has_win_line (b : List Nat) (m : Nat)
    (h : TicTacToeGame.check_winner b = some m) : has_win_line b m := by
  unfold TicTacToeGame.check_winner at h
  obtain ⟨t, ht, hf⟩ := List.exists_of_findSome?_eq_some h
  by_cases hc : b.getD t.1 0 ≠ 0 ∧ b.getD t.1 0 = b.getD t.2.1 0 ∧
      b.getD t.2.1 0 = b.getD t.2.2 0
  · rw [if_pos hc] at hf
    obtain ⟨h0, h1, h2⟩ := hc
    cases hf
    exact ⟨t, ht, h0, rfl, h1.symm, (h1.trans h2).symm⟩
  · rw [if_neg hc] at hf
    cases hf

/-- If `check_winner` finds nothing, no win line is complete. -/
theorem check_winner_none_no_win_line (b : List Nat)
    (h : TicTacToeGame.check_winner b = none) (m : Nat) :
    ¬ has_win_line b m := by
  rintro ⟨t, ht, h0, h1, h2, h3⟩
  unfold TicTacToeGame.check_winner at h
  rw [List.findSome?_eq_none_iff] at h
  have hft := h t ht
  rw [if_pos ⟨by rw [h1]; exact h0, h1.trans h2.symm, h2.trans h3.symm⟩] at hft
  cases hft

/-- Setting one cell to a bounded marker keeps every cell bounded. -/
theorem getD_set_le (l : List Nat) (pos a bound : Nat)
    (hl : ∀ i, l.getD i 0 ≤ bound) (ha : a ≤ bound) (i : Nat) :
    (l.set pos a).getD i 0 ≤ bound := by
  rw [List.getD_eq_getElem?_getD, List.getElem?_set]
  split_ifs with h1 h2
  · exact ha
  · exact Nat.zero_le _
  · rw [← List.getD_eq_getElem?_getD]
    exact hl i

/-- On an in-progress game the marker being placed is X's or O's. -/
theorem current_marker_le_two (g : TicTacToeGame) (h : g.is_in_progress) :
    g.current_marker ≤ 2 := by
  unfold TicTacToeGame.current_marker
  rcases h with h | h <;> rw [h] <;> decide

/-- Cells of a list whose members are all bounded are bounded (also out of
range, where `getD` falls back to 0). -/
theorem getD_le_of_forall_mem (l : List Nat) (hl : ∀ x ∈ l, x ≤ 2)
    (i : Nat) : l.getD i 0 ≤ 2 := by
  rw [List.getD_eq_getElem?_getD]
  rcases h : l[i]? with _ | x
  · exact Nat.zero_le _
  · exact hl x (List.getElem?_mem h)

/-- A concrete mid-game position: X (1) to move, X on cells 0 and 3, O (2)
on cells 1 and 4, four moves played. -/
def tttWinSetup : TicTacToeGame :=
  { tttG2 with board := [1, 2, 0, 1, 2, 0, 0, 0, 0], move_count := 4 }

/-- `tttWinSetup` after X plays cell 6, completing the left column: X
wins. -/
def tttWin : TicTacToeGame :=
  { tttWinSetup with
    board := [1, 2, 0, 1, 2, 0, 1, 0, 0]
    move_count := 5
    winner := some 1
    state := TicTacToeState.XWins }

/-- C6: for every successful `make_move` on a well-formed record (board
cells in {0,1,2}, `move_count < 9` as the data model's 0–9 range with an
empty cell demands), the move places the current marker and increments
`move_count`, and the resulting state is determined in order: if any of
the eight win lines holds three equal non-empty markers, `check_winner`
returns that marker `m ∈ {1,2}` and the winner/state are set to its
owner (`player_x`/`XWins` for 1, `player_o`/`OWins` for 2); otherwise if
the new `move_count` is 9 the state becomes `Draw`; otherwise the turn
flips between `PlayerXTurn` and `PlayerOTurn`. -/
theorem make_move_outcome (g : TicTacToeGame) (player : Pubkey)
    (position : Nat) (g1 : TicTacToeGame)
    (hmc : g.move_count < 9) (hbd : ∀ i, g.board.getD i 0 ≤ 2)
    (h : make_move g player position = .ok g1) :
    g1.board = g.board.set position g.current_marker ∧
    g1.move_count = g.move_count + 1 ∧
    ((∃ m, has_win_line g1.board m) →
      ∃ m, TicTacToeGame.check_winner g1.board = some m ∧
        has_win_line g1.board m ∧ (m = 1 ∨ m = 2) ∧
        (m = 1 → g1.state = TicTacToeState.XWins ∧
          g1.winner = some g.player_x) ∧
        (m = 2 → g1.state = TicTacToeState.OWins ∧
          g1.winner = g.player_o)) ∧
    ((∀ m, ¬ has_win_line g1.board m) →
      g1.winner = g.winner ∧
      (g1.move_count = 9 → g1.state = TicTacToeState.Draw) ∧
      (g1.move_count ≠ 9 →
        g1.state = (if g.state = TicTacToeState.PlayerXTurn then
          TicTacToeState.PlayerOTurn else TicTacToeState.PlayerXTurn))) := by
  unfold make_move at h
  split_ifs at h with h1 h2 h3 h4
  dsimp only at h
  rcases hw : TicTacToeGame.check_winner
      (g.board.set position g.current_marker) with _ | m <;>
    rw [hw] at h <;> dsimp only at h
  · -- no winner on the new board: draw or turn flip
    split_ifs at h with hfull hx
    · cases h
      unfold TicTacToeGame.is_board_full at hfull
      dsimp only at hfull
      have hfull9 : g.move_count + 1 = 9 := by omega
      refine ⟨rfl, rfl, ?_, ?_⟩
      · rintro ⟨m, hm⟩
        exact absurd hm (check_winner_none_no_win_line _ hw m)
      · exact fun _ => ⟨rfl, fun _ => rfl, fun hne => absurd hfull9 hne⟩
    · cases h
      unfold TicTacToeGame.is_board_full at hfull
      dsimp only at hfull
      have hne9 : g.move_count + 1 ≠ 9 := by omega
      refine ⟨rfl, rfl, ?_, ?_⟩
      · rintro ⟨m, hm⟩
        exact absurd hm (check_winner_none_no_win_line _ hw m)
      · refine fun _ => ⟨rfl, fun he => absurd he hne9, fun _ => ?_⟩
        simp [hx]
    · cases h
      unfold TicTacToeGame.is_board_full at hfull
      dsimp only at hfull
      have hne9 : g.move_count + 1 ≠ 9 := by omega
      refine ⟨rfl, rfl, ?_, ?_⟩
      · rintro ⟨m, hm⟩
        exact absurd hm (check_winner_none_no_win_line _ hw m)
      · refine fun _ => ⟨rfl, fun he => absurd he hne9, fun _ => ?_⟩
        simp [hx]
  · -- a win line is complete: the marker's owner wins
    have hwl := check_winner_some_has_win_line _ _ hw
    have hm2 : m ≤ 2 := by
      obtain ⟨t, ht, h0, ha, _, _⟩ := hwl
      rw [← ha]
      exact getD_set_le g.board position g.current_marker 2 hbd
        (current_marker_le_two g h1) t.1
    have hm0 : m ≠ 0 := by
      obtain ⟨t, ht, h0, _, _, _⟩ := hwl
      exact h0
    split_ifs at h with hm1 <;> cases h
    · refine ⟨rfl, rfl, ?_, ?_⟩
      · exact fun _ => ⟨m, hw, hwl, Or.inl hm1,
          fun _ => ⟨rfl, rfl⟩, fun hm => absurd (hm1.symm.trans hm) (by decide)⟩
      · intro hno
        exact absurd hwl (hno m)
    · have hm2eq : m = 2 := by omega
      refine ⟨rfl, rfl, ?_, ?_⟩
      · exact fun _ => ⟨m, hw, hwl, Or.inr hm2eq,
          fun hm => absurd hm hm1, fun _ => ⟨rfl, rfl⟩⟩
      · intro hno
        exact absurd hwl (hno m)

/-- Witness for C6: X (player 1) completes the left column on a concrete
board; the move is placed, `move_count` becomes 5, and the X win line is
detected. -/
theorem make_move_outcome_witness :
    tttWinSetup.move_count < 9 ∧
    (tttWin.board = tttWinSetup.board.set 6 tttWinSetup.current_marker ∧
      tttWin.move_count = tttWinSetup.move_count + 1 ∧
      ((∃ m, has_win_line tttWin.board m) →
        ∃ m, TicTacToeGame.check_winner tttWin.board = some m ∧
          has_win_line tttWin.board m ∧ (m = 1 ∨ m = 2) ∧
          (m = 1 → tttWin.state = TicTacToeState.XWins ∧
            tttWin.winner = some tttWinSetup.player_x) ∧
          (m = 2 → tttWin.state = TicTacToeState.OWins ∧
            tttWin.winner = tttWinSetup.player_o)) ∧
      ((∀ m, ¬ has_win_line tttWin.board m) →
        tttWin.winner = tttWinSetup.winner ∧
        (tttWin.move_count = 9 → tttWin.state = TicTacToeState.Draw) ∧
        (tttWin.move_count ≠ 9 →
          tttWin.state = (if tttWinSetup.state = TicTacToeState.PlayerXTurn
            then TicTacToeState.PlayerOTurn
            else TicTacToeState.PlayerXTurn)))) :=
  ⟨by decide,
    make_move_outcome tttWinSetup 1 6 tttWin (by decide)
      (getD_le_of_forall_mem _ (by decide)) (by decide)⟩

/-! ### C1: at-most-once coinflip payout -/

/-- A successful `claim_winnings` pays `wager * 2`, sets `claimed`, and
leaves `state`, `winner`, `wager` and the players unchanged. -/
theorem claim_winnings_ok (g g1 : CoinflipGame) (c : Pubkey) (amt : Nat)
    (h : claim_winnings g c = .ok (g1, amt)) :
    amt = g.wager * 2 ∧ g1.claimed = true ∧ g1.state = g.state ∧
      g1.winner = g.winner ∧ g1.wager = g.wager ∧
      g1.player_a = g.player_a ∧ g1.player_b = g.player_b := by
  unfold claim_winnings at h
  split_ifs at h
  rcases hm : checkedMul g.wager 2 with _ | pot <;> rw [hm] at h
  · cases h
  · unfold checkedMul at hm
    split_ifs at hm
    cases hm
    cases h
    exact ⟨rfl, rfl, rfl, rfl, rfl, rfl, rfl⟩

/-- On a claimed, completed game every further claim attempt fails:
`AlreadyClaimed` for the winner, `NotGameWinner` for anyone else. -/
theorem claim_winnings_after (g : CoinflipGame) (c : Pubkey)
    (hs : g.state = GameState.Completed) (hc : g.claimed = true) :
    claim_winnings g c =
      .error (if g.winner = some c then AlreadyClaimed else NotGameWinner) := by
  unfold claim_winnings
  by_cases hw : g.winner = some c
  · simp [CoinflipGame.is_completed, hs, hw, hc]
  · simp [CoinflipGame.is_completed, hs, hw, hc]

/-- On a claimed, completed game a run of claim attempts changes nothing
and every attempt fails with the error of `claim_winnings_after`. -/
theorem runClaims_claimed (g : CoinflipGame) (cs : List Pubkey)
    (hs : g.state = GameState.Completed) (hc : g.claimed = true) :
    runClaims g cs = (g, cs.map fun d =>
      .error (if g.winner = some d then AlreadyClaimed else NotGameWinner)) := by
  induction cs with
  | nil => rfl
  | cons d cs ih =>
    unfold runClaims
    rw [claim_winnings_after g d hs hc]
    simp [ih]

/-- Runs of claim attempts preserve the game's `state` and `wager`. -/
theorem runClaims_fst_preserved (g : CoinflipGame) (cs : List Pubkey) :
    (runClaims g cs).1.state = g.state ∧ (runClaims g cs).1.wager = g.wager := by
  induction cs generalizing g with
  | nil => exact ⟨rfl, rfl⟩
  | cons d cs ih =>
    unfold runClaims
    rcases hcl : claim_winnings g d with e | r
    · exact ih g
    · obtain ⟨g1, amt⟩ := r
      obtain ⟨_, _, hst, _, hwag, _, _⟩ := claim_winnings_ok g g1 d amt hcl
      exact ⟨(ih g1).1.trans hst, (ih g1).2.trans hwag⟩

/-- A success is recognised as such. -/
theorem isOk_ok {ε α : Type} (a : α) :
    (Except.ok a : Except ε α).isOk = true := rfl

/-- A failure is not a success. -/
theorem isOk_error {ε α : Type} (e : ε) :
    (Except.error e : Except ε α).isOk = false := rfl

/-- An all-error result list has no successes. -/
theorem okCount_map_error (cs : List Pubkey)
    (f : Pubkey → ArciumMxeError) :
    okCount (cs.map fun d => .error (f d)) = 0 := by
  induction cs with
  | nil => rfl
  | cons d cs ih =>
    unfold okCount at ih ⊢
    simpa only [List.map_cons, List.filter_cons, isOk_error,
      Bool.false_eq_true, if_false] using ih

/-- At most one claim in any run on a completed game succeeds. -/
theorem okCount_runClaims_le_one (g : CoinflipGame)
    (hs : g.state = GameState.Completed) (cs : List Pubkey) :
    okCount (runClaims g cs).2 ≤ 1 := by
  induction cs generalizing g with
  | nil => exact Nat.zero_le 1
  | cons d cs ih =>
    unfold runClaims
    rcases hcl : claim_winnings g d with e | r
    · dsimp only
      simpa only [okCount, List.filter_cons, isOk_error, Bool.false_eq_true,
        if_false] using ih g hs
    · obtain ⟨g1, amt⟩ := r
      obtain ⟨_, hc1, hst, _, _, _, _⟩ := claim_winnings_ok g g1 d amt hcl
      dsimp only
      rw [runClaims_claimed g1 cs (hst.trans hs) hc1]
      have h0 := okCount_map_error cs
        (fun d => if g1.winner = some d then AlreadyClaimed else NotGameWinner)
      simp only [okCount, List.filter_cons, isOk_ok, if_true,
        List.length_cons] at h0 ⊢
      omega

/-- C1 (amended): on every completed coinflip game, for all sequences of
`claim_winnings` attempts by any callers, at most one attempt succeeds,
and a success pays exactly `wager * 2`; every attempt after the first
successful one fails and moves no funds — with `AlreadyClaimed` when made
by the winner, and with `NotGameWinner` when made by anyone else. -/
theorem coinflip_claim_at_most_once (g : CoinflipGame)
    (hs : g.state = GameState.Completed)
    (callers pre post : List Pubkey) (c : Pubkey) :
    okCount (runClaims g callers).2 ≤ 1 ∧
    (∀ g2 amt, claim_winnings (runClaims g pre).1 c = .ok (g2, amt) →
      amt = g.wager * 2 ∧
      (runClaims g2 post).2 = post.map fun d =>
        .error (if g2.winner = some d then AlreadyClaimed
                else NotGameWinner)) := by
  refine ⟨okCount_runClaims_le_one g hs callers, ?_⟩
  intro g2 amt h
  obtain ⟨hpres, hpresw⟩ := runClaims_fst_preserved g pre
  obtain ⟨hamt, hc2, hst2, _, _, _, _⟩ := claim_winnings_ok _ g2 c amt h
  refine ⟨hamt.trans (by rw [hpresw]), ?_⟩
  rw [runClaims_claimed g2 post (hst2.trans (hpres.trans hs)) hc2]

/-- `cfG4` after the winner's claim: paid out and flagged claimed. -/
def cfG5 : CoinflipGame := { cfG4 with claimed := true, lamports := 0 }

/-- Witness for C1 (amended): on the concrete completed game `cfG4`
(winner 2), the winner's claim pays `2 * MIN_WAGER` and both later
attempts (winner 2 and non-winner 1) fail with the characterised
errors. -/
theorem coinflip_claim_at_most_once_witness :
    cfG4.state = GameState.Completed ∧
    (2000000 = cfG4.wager * 2 ∧
      (runClaims cfG5 [1, 2]).2 = [1, 2].map fun d =>
        Except.error (if cfG5.winner = some d then AlreadyClaimed
                      else NotGameWinner)) :=
  ⟨rfl, (coinflip_claim_at_most_once cfG4 rfl [] [] [1, 2] 2).2 cfG5 2000000
    (by decide)⟩

/-- Counterexample to C1 as stated: on the completed game `cfG4` with
winner 2, after the winner's successful claim the attempt by the
non-winner 1 fails with `NotGameWinner` — not `AlreadyClaimed` as the
claim asserts for "any callers". -/
theorem coinflip_claim_counterexample :
    cfG4.state = GameState.Completed ∧
    (runClaims cfG4 [2, 1]).2 = [.ok 2000000, .error NotGameWinner] ∧
    ArciumMxeError.NotGameWinner ≠ ArciumMxeError.AlreadyClaimed := by
  decide

/-! ### C10: the winner is always a participant -/

/-- A created coinflip game has no winner. -/
theorem create_game_winner (ch pa : Pubkey) (w : Nat) (c : Bytes) (now : Int)
    (rent bump : Nat) (g : CoinflipGame)
    (h : create_game ch pa w c now rent bump = .ok g) : g.winner = none := by
  unfold create_game at h
  split_ifs at h
  cases h
  rfl

/-- A successful join happens on a waiting game and changes neither the
winner nor the creator; it records the joiner. -/
theorem join_game_ok (g g1 : CoinflipGame) (pb : Pubkey) (c : Bytes)
    (h : join_game g pb c = .ok g1) :
    g.state = GameState.WaitingForPlayer ∧ g1.winner = g.winner ∧
      g1.player_a = g.player_a ∧ g1.player_b = some pb ∧
      g1.state = GameState.WaitingForReveal := by
  unfold join_game at h
  split_ifs at h with h1 h2
  cases h
  exact ⟨h1, rfl, rfl, rfl, rfl⟩

/-- `compute_winner` yields nobody, the creator, or the recorded
joiner. -/
theorem compute_winner_cases (g : CoinflipGame) :
    g.compute_winner = none ∨ g.compute_winner = some g.player_a ∨
      ∃ pb, g.player_b = some pb ∧ g.compute_winner = some pb := by
  unfold CoinflipGame.compute_winner
  rcases ha : g.choice_a with _ | a
  · exact Or.inl rfl
  · rcases hb : g.choice_b with _ | b
    · exact Or.inl rfl
    · rcases hpb : g.player_b with _ | pb
      · exact Or.inl rfl
      · by_cases hab : a = b
        · exact Or.inr (Or.inl (by simp [hab]))
        · exact Or.inr (Or.inr ⟨pb, rfl, by simp [hab]⟩)

/-- What `reveal_finish` can do: leave the record alone, or complete it
with a winner that is absent, the creator, or the recorded joiner. -/
theorem reveal_finish_cases (g g1 : CoinflipGame)
    (h : reveal_finish g = .ok g1) :
    g1 = g ∨
    (g1.state = GameState.Completed ∧ g1.player_a = g.player_a ∧
      g1.player_b = g.player_b ∧
      (g1.winner = none ∨ g1.winner = some g.player_a ∨
        ∃ pb, g.player_b = some pb ∧ g1.winner = some pb)) := by
  unfold reveal_finish at h
  split_ifs at h with hb
  · cases h
    exact Or.inr ⟨rfl, rfl, rfl, compute_winner_cases g⟩
  · cases h
    exact Or.inl rfl

/-- A successful reveal happens in `WaitingForReveal`, preserves the
players, and either leaves winner and state alone or completes the game
with a winner among the participants. -/
theorem reveal_choice_ok (keccak : Bytes → Bytes) (g g1 : CoinflipGame)
    (r : Pubkey) (ch : Nat) (n : Bytes)
    (h : reveal_choice keccak g r ch n = .ok g1) :
    g.state = GameState.WaitingForReveal ∧ g1.player_a = g.player_a ∧
      g1.player_b = g.player_b ∧
      ((g1.winner = g.winner ∧ g1.state = g.state) ∨
        (g1.state = GameState.Completed ∧
          (g1.winner = none ∨ g1.winner = some g.player_a ∨
            ∃ pb, g.player_b = some pb ∧ g1.winner = some pb))) := by
  unfold reveal_choice at h
  dsimp only at h
  split_ifs at h with h1 h2 h3 h4 h5 h6 h7 h8 <;>
    refine ⟨h1, ?_⟩
  · rcases reveal_finish_cases _ _ h with heq | ⟨hs, hpa, hpb, hw⟩
    · subst heq
      exact ⟨rfl, rfl, Or.inl ⟨rfl, rfl⟩⟩
    · exact ⟨hpa, hpb, Or.inr ⟨hs, hw⟩⟩
  · rcases reveal_finish_cases _ _ h with heq | ⟨hs, hpa, hpb, hw⟩
    · subst heq
      exact ⟨rfl, rfl, Or.inl ⟨rfl, rfl⟩⟩
    · exact ⟨hpa, hpb, Or.inr ⟨hs, hw⟩⟩

/-- A successful cancel happens on a waiting game and changes neither the
winner nor the players. -/
theorem cancel_game_ok (g g1 : CoinflipGame) (c : Pubkey) (amt : Nat)
    (h : cancel_game g c = .ok (g1, amt)) :
    g.state = GameState.WaitingForPlayer ∧ g1.winner = g.winner ∧
      g1.player_a = g.player_a ∧ g1.player_b = g.player_b := by
  unfold cancel_game at h
  split_ifs at h with h1 h2
  cases h
  exact ⟨h2, rfl, rfl, rfl⟩

/-- Coinflip game records reachable through the instruction handlers, for
a fixed external hash `keccak` and rent deposit `rent`. -/
inductive CfReach (keccak : Bytes → Bytes) (rent : Nat) :
    CoinflipGame → Prop where
  | create {ch pa : Pubkey} {w : Nat} {c : Bytes} {now : Int} {bump : Nat}
      {g : CoinflipGame} (h : create_game ch pa w c now rent bump = .ok g) :
      CfReach keccak rent g
  | join {g g1 : CoinflipGame} {pb : Pubkey} {c : Bytes}
      (hg : CfReach keccak rent g) (h : join_game g pb c = .ok g1) :
      CfReach keccak rent g1
  | reveal {g g1 : CoinflipGame} {r : Pubkey} {ch : Nat} {n : Bytes}
      (hg : CfReach keccak rent g)
      (h : reveal_choice keccak g r ch n = .ok g1) : CfReach keccak rent g1
  | claim {g g1 : CoinflipGame} {c : Pubkey} {amt : Nat}
      (hg : CfReach keccak rent g) (h : claim_winnings g c = .ok (g1, amt)) :
      CfReach keccak rent g1
  | cancel {g g1 : CoinflipGame} {c : Pubkey} {amt : Nat}
      (hg : CfReach keccak rent g) (h : cancel_game g c = .ok (g1, amt)) :
      CfReach keccak rent g1

/-- Strengthened coinflip invariant: no winner yet, or the game is
completed and the winner is the creator or the recorded joiner. -/
theorem cfReach_inv (keccak : Bytes → Bytes) (rent : Nat)
    (g : CoinflipGame) (hg : CfReach keccak rent g) :
    g.winner = none ∨
      (g.state = GameState.Completed ∧ ∃ w, g.winner = some w ∧
        (w = g.player_a ∨ some w = g.player_b)) := by
  induction hg with
  | create h => exact Or.inl (create_game_winner _ _ _ _ _ _ _ _ h)
  | join hg h ih =>
      obtain ⟨hs, hw, _, _, _⟩ := join_game_ok _ _ _ _ h
      rcases ih with hnone | ⟨hc, _⟩
      · exact Or.inl (hw.trans hnone)
      · rw [hs] at hc
        cases hc
  | reveal hg h ih =>
      obtain ⟨hs, hpa, hpb, hcase⟩ := reveal_choice_ok _ _ _ _ _ _ h
      rcases ih with hn | ⟨hc, _⟩
      · rcases hcase with ⟨hw, _⟩ | ⟨hc1, hw⟩
        · exact Or.inl (hw.trans hn)
        · rcases hw with hw | hw | ⟨pb, hpb0, hw⟩
          · exact Or.inl hw
          · exact Or.inr ⟨hc1, _, hw, Or.inl hpa.symm⟩
          · exact Or.inr ⟨hc1, pb, hw, Or.inr (by rw [hpb, hpb0])⟩
      · rw [hs] at hc
        cases hc
  | claim hg h ih =>
      obtain ⟨_, _, hst, hw, _, hpa, hpb⟩ := claim_winnings_ok _ _ _ _ h
      rcases ih with hn | ⟨hc, w, hws, hwp⟩
      · exact Or.inl (hw.trans hn)
      · refine Or.inr ⟨hst.trans hc, w, hw.trans hws, ?_⟩
        rcases hwp with hwp | hwp
        · exact Or.inl (hpa.symm ▸ hwp)
        · exact Or.inr (hpb.symm ▸ hwp)
  | cancel hg h ih =>
      obtain ⟨hs, hw, _, _⟩ := cancel_game_ok _ _ _ _ h
      rcases ih with hn | ⟨hc, _⟩
      · exact Or.inl (hw.trans hn)
      · rw [hs] at hc
        cases hc

/-- A created tic-tac-toe game has no winner. -/
theorem create_ttt_game_winner (ch px : Pubkey) (w : Nat) (now : Int)
    (rent bump : Nat) (g : TicTacToeGame)
    (h : create_ttt_game ch px w now rent bump = .ok g) : g.winner = none := by
  unfold create_ttt_game at h
  split_ifs at h
  cases h
  rfl

/-- A successful join happens on a waiting game and changes neither the
winner nor the creator; the resulting state is X's turn. -/
theorem join_ttt_game_ok (g g1 : TicTacToeGame) (po : Pubkey)
    (h : join_ttt_game g po = .ok g1) :
    g.state = TicTacToeState.WaitingForPlayer ∧ g1.winner = g.winner ∧
      g1.player_x = g.player_x ∧ g1.player_o = some po ∧
      g1.state = TicTacToeState.PlayerXTurn := by
  unfold join_ttt_game at h
  split_ifs at h with h1 h2
  cases h
  exact ⟨h1, rfl, rfl, rfl, rfl⟩

/-- A successful move happens on an in-progress game, preserves the
players, never re-enters `WaitingForPlayer`, and either leaves the winner
alone or sets it to X's or O's address. -/
theorem make_move_winner_cases (g g1 : TicTacToeGame) (p : Pubkey)
    (pos : Nat) (h : make_move g p pos = .ok g1) :
    g.is_in_progress ∧ g1.player_x = g.player_x ∧ g1.player_o = g.player_o ∧
      ¬ g1.state = TicTacToeState.WaitingForPlayer ∧
      (g1.winner = g.winner ∨ g1.winner = some g.player_x ∨
        g1.winner = g.player_o) := by
  unfold make_move at h
  split_ifs at h with h1 h2 h3 h4
  dsimp only at h
  refine ⟨h1, ?_⟩
  rcases hw : TicTacToeGame.check_winner
      (g.board.set pos g.current_marker) with _ | m <;>
    rw [hw] at h <;> dsimp only at h
  · split_ifs at h <;> cases h <;>
      exact ⟨rfl, rfl, by simp, Or.inl rfl⟩
  · split_ifs at h <;> cases h
    · exact ⟨rfl, rfl, by simp, Or.inr (Or.inl rfl)⟩
    · exact ⟨rfl, rfl, by simp, Or.inr (Or.inr rfl)⟩

/-- A successful tic-tac-toe claim changes neither winner, players nor
state. -/
theorem claim_ttt_preserves (g g1 : TicTacToeGame) (c : Pubkey) (amt : Nat)
    (h : claim_ttt_winnings g c = .ok (g1, amt)) :
    g1.winner = g.winner ∧ g1.player_x = g.player_x ∧
      g1.player_o = g.player_o ∧ g1.state = g.state := by
  unfold claim_ttt_winnings at h
  split_ifs at h
  rcases hs : g.state <;> rw [hs] at h <;> dsimp only at h <;>
    split_ifs at h
  · rcases hm : checkedMul g.wager 2 with _ | pot <;> rw [hm] at h
    · cases h
    · cases h
      exact ⟨rfl, rfl, rfl, rfl⟩
  · rcases hm : checkedMul g.wager 2 with _ | pot <;> rw [hm] at h
    · cases h
    · cases h
      exact ⟨rfl, rfl, rfl, rfl⟩
  · cases h
    exact ⟨rfl, rfl, rfl, rfl⟩
  · cases h
    exact ⟨rfl, rfl, rfl, rfl⟩

/-- A successful cancel happens on a waiting game and changes neither the
winner nor the players. -/
theorem cancel_ttt_game_ok (g g1 : TicTacToeGame) (c : Pubkey) (amt : Nat)
    (h : cancel_ttt_game g c = .ok (g1, amt)) :
    g.state = TicTacToeState.WaitingForPlayer ∧ g1.winner = g.winner ∧
      g1.player_x = g.player_x ∧ g1.player_o = g.player_o := by
  unfold cancel_ttt_game at h
  split_ifs at h with h1 h2
  cases h
  exact ⟨h2, rfl, rfl, rfl⟩

/-- Tic-tac-toe game records reachable through the instruction handlers,
for a fixed rent deposit `rent`. -/
inductive TttReach (rent : Nat) : TicTacToeGame → Prop where
  | create {ch px : Pubkey} {w : Nat} {now : Int} {bump : Nat}
      {g : TicTacToeGame} (h : create_ttt_game ch px w now rent bump = .ok g) :
      TttReach rent g
  | join {g g1 : TicTacToeGame} {po : Pubkey}
      (hg : TttReach rent g) (h : join_ttt_game g po = .ok g1) :
      TttReach rent g1
  | move {g g1 : TicTacToeGame} {p : Pubkey} {pos : Nat}
      (hg : TttReach rent g) (h : make_move g p pos = .ok g1) :
      TttReach rent g1
  | claim {g g1 : TicTacToeGame} {c : Pubkey} {amt : Nat}
      (hg : TttReach rent g) (h : claim_ttt_winnings g c = .ok (g1, amt)) :
      TttReach rent g1
  | cancel {g g1 : TicTacToeGame} {c : Pubkey} {amt : Nat}
      (hg : TttReach rent g) (h : cancel_ttt_game g c = .ok (g1, amt)) :
      TttReach rent g1

/-- Strengthened tic-tac-toe invariant: no winner yet, or the game has
left the waiting room and the winner is X or the recorded O. -/
theorem tttReach_inv (rent : Nat) (g : TicTacToeGame)
    (hg : TttReach rent g) :
    g.winner = none ∨
      (¬ g.state = TicTacToeState.WaitingForPlayer ∧ ∃ w, g.winner = some w ∧
        (w = g.player_x ∨ some w = g.player_o)) := by
  induction hg with
  | create h => exact Or.inl (create_ttt_game_winner _ _ _ _ _ _ _ h)
  | join hg h ih =>
      obtain ⟨hs, hw, _, _, _⟩ := join_ttt_game_ok _ _ _ h
      rcases ih with hn | ⟨hww, _⟩
      · exact Or.inl (hw.trans hn)
      · exact absurd hs hww
  | @move g0 g1 p pos hg h ih =>
      obtain ⟨hprog, hpx, hpo, hnw, hw⟩ := make_move_winner_cases _ _ _ _ h
      rcases hw with hw | hw | hw
      · rcases ih with hn | ⟨_, w, hws, hwp⟩
        · exact Or.inl (hw.trans hn)
        · refine Or.inr ⟨hnw, w, hw.trans hws, ?_⟩
          rcases hwp with hwp | hwp
          · exact Or.inl (by rw [hpx]; exact hwp)
          · exact Or.inr (by rw [hpo]; exact hwp)
      · exact Or.inr ⟨hnw, g0.player_x, hw, Or.inl hpx.symm⟩
      · rcases hpo0 : g0.player_o with _ | po
        · exact Or.inl (by rw [hw, hpo0])
        · exact Or.inr ⟨hnw, po, by rw [hw, hpo0], Or.inr (by rw [hpo, hpo0])⟩
  | claim hg h ih =>
      obtain ⟨hw, hpx, hpo, hst⟩ := claim_ttt_preserves _ _ _ _ h
      rcases ih with hn | ⟨hww, w, hws, hwp⟩
      · exact Or.inl (hw.trans hn)
      · refine Or.inr ⟨by rw [hst]; exact hww, w, hw.trans hws, ?_⟩
        rcases hwp with hwp | hwp
        · exact Or.inl (hpx.symm ▸ hwp)
        · exact Or.inr (hpo.symm ▸ hwp)
  | cancel hg h ih =>
      obtain ⟨hs, hw, _, _⟩ := cancel_ttt_game_ok _ _ _ _ h
      rcases ih with hn | ⟨hww, _⟩
      · exact Or.inl (hw.trans hn)
      · exact absurd hs hww

/-- C10: for every reachable game record of either variant, whenever the
`winner` field is set, it is the address of one of the game's two
participants — the creator (`player_a`/`player_x`) or the joined second
player (`player_b`/`player_o`). -/
theorem winner_is_participant (keccak : Bytes → Bytes) (rent : Nat) :
    (∀ g, CfReach keccak rent g → ∀ w, g.winner = some w →
      w = g.player_a ∨ some w = g.player_b) ∧
    (∀ g, TttReach rent g → ∀ w, g.winner = some w →
      w = g.player_x ∨ some w = g.player_o) := by
  constructor
  · intro g hg w hw
    rcases cfReach_inv keccak rent g hg with hn | ⟨_, w0, hw0, hwp⟩
    · rw [hn] at hw
      cases hw
    · rw [hw0] at hw
      cases hw
      exact hwp
  · intro g hg w hw
    rcases tttReach_inv rent g hg with hn | ⟨_, w0, hw0, hwp⟩
    · rw [hn] at hw
      cases hw
    · rw [hw0] at hw
      cases hw
      exact hwp

/-- `tttG2` after X plays cell 0. -/
def tttM1 : TicTacToeGame :=
  { tttG2 with board := [1, 0, 0, 0, 0, 0, 0, 0, 0], move_count := 1,
               state := TicTacToeState.PlayerOTurn }

/-- `tttM1` after O plays cell 1. -/
def tttM2 : TicTacToeGame :=
  { tttM1 with board := [1, 2, 0, 0, 0, 0, 0, 0, 0], move_count := 2,
               state := TicTacToeState.PlayerXTurn }

/-- `tttM2` after X plays cell 3. -/
def tttM3 : TicTacToeGame :=
  { tttM2 with board := [1, 2, 0, 1, 0, 0, 0, 0, 0], move_count := 3,
               state := TicTacToeState.PlayerOTurn }

/-- Witness for C10: the concrete completed coinflip game `cfG4`
(winner 2 = joiner) reached by create/join/reveal/reveal, and the concrete
won tic-tac-toe game `tttWin` (winner 1 = creator) reached by create,
join and five moves. -/
theorem winner_is_participant_witness :
    cfG4.winner = some 2 ∧ tttWin.winner = some 1 ∧
      (2 = cfG4.player_a ∨ some 2 = cfG4.player_b) ∧
      (1 = tttWin.player_x ∨ some 1 = tttWin.player_o) := by
  have hc1 : CfReach kecId 0 cfG1 :=
    @CfReach.create kecId 0 0 1 MIN_WAGER (0 :: n0) 0 0 cfG1 (by decide)
  have hc2 : CfReach kecId 0 cfG2 :=
    @CfReach.join kecId 0 cfG1 cfG2 2 (1 :: n0) hc1 (by decide)
  have hc3 : CfReach kecId 0 cfG3 :=
    @CfReach.reveal kecId 0 cfG2 cfG3 1 0 n0 hc2 (by decide)
  have hc4 : CfReach kecId 0 cfG4 :=
    @CfReach.reveal kecId 0 cfG3 cfG4 2 1 n0 hc3 (by decide)
  have ht1 : TttReach 0 tttG1 :=
    @TttReach.create 0 0 1 MIN_WAGER 0 0 tttG1 (by decide)
  have ht2 : TttReach 0 tttG2 :=
    @TttReach.join 0 tttG1 tttG2 2 ht1 (by decide)
  have ht3 : TttReach 0 tttM1 :=
    @TttReach.move 0 tttG2 tttM1 1 0 ht2 (by decide)
  have ht4 : TttReach 0 tttM2 :=
    @TttReach.move 0 tttM1 tttM2 2 1 ht3 (by decide)
  have ht5 : TttReach 0 tttM3 :=
    @TttReach.move 0 tttM2 tttM3 1 3 ht4 (by decide)
  have ht6 : TttReach 0 tttWinSetup :=
    @TttReach.move 0 tttM3 tttWinSetup 2 4 ht5 (by decide)
  have ht7 : TttReach 0 tttWin :=
    @TttReach.move 0 tttWinSetup tttWin 1 6 ht6 (by decide)
  have h := winner_is_participant kecId 0
  exact ⟨rfl, rfl, h.1 cfG4 hc4 2 rfl, h.2 tttWin ht7 1 rfl⟩

/-! ### C4 and C5: the draw settlement path -/

/-- A full game ending in a draw, with the claims the scenario needs:
creator 1 and joiner 2 each stake `MIN_WAGER` (account also holds `rent`),
they fill the board with no three-in-a-row (final board
`[X X O / O O X / X O X]`), and then player 1 — the same player — claims
twice.  Returns the final record and the two amounts paid to player 1. -/
def tttDrawDoubleClaim (rent : Nat) :
    Except ArciumMxeError (TicTacToeGame × Nat × Nat) := do
  let g ← create_ttt_game 0 1 MIN_WAGER 0 rent 0
  let g ← join_ttt_game g 2
  let g ← runMoves g [(1, 0), (2, 2), (1, 1), (2, 3), (1, 5), (2, 4),
                      (1, 6), (2, 7), (1, 8)]
  let (g, a1) ← claim_ttt_winnings g 1
  let (g, a2) ← claim_ttt_winnings g 1
  pure (g, a1, a2)

/-- C4 fails on the code (code bug): in a reachable draw game with no rent
deposit, player 1 successfully claims twice, receiving `MIN_WAGER` both
times — their own share and player 2's — after which player 2's claim
fails with `AlreadyClaimed`.  The draw branch of `claim_ttt_winnings`
never records who has claimed, so "each player may claim only their own
one-wager share" does not hold. -/
theorem ttt_draw_same_player_double_claim :
    (tttDrawDoubleClaim 0).map
        (fun r => (r.1.state, r.2.1, r.2.2, r.1.claimed, r.1.lamports)) =
      .ok (TicTacToeState.Draw, MIN_WAGER, MIN_WAGER, true, 0) ∧
    (tttDrawDoubleClaim 0).bind (fun r => claim_ttt_winnings r.1 2) =
      .error AlreadyClaimed := by
  decide

/-- The same draw game created with a rent-exempt deposit of 2,053,200
lamports (the rent-exempt minimum for this 167-byte account:
`(128 + 167) × 6960`, which exceeds `MIN_WAGER`), followed by three
successful claims: by 1, by 2, and by 1 again.  Returns the final record
and the total paid out. -/
def tttDrawTripleClaim : Except ArciumMxeError (TicTacToeGame × Nat) := do
  let r ← tttDrawDoubleClaim 2053200
  let (g, a3) ← claim_ttt_winnings r.1 2
  pure (g, r.2.1 + r.2.2 + a3)

/-- C5 fails on the code (code bug): with the rent deposit at
2,053,200 ≥ one wager, the `game_lamports < wager` test in the draw
branch never fires, so a third claim also succeeds: the record pays out
`3 * MIN_WAGER` although only `2 * MIN_WAGER` was ever escrowed by the
two joined players, and the account balance (1,053,200) ends below the
rent deposit — the escrow custody `lamports - rent` is negative,
violating `custody = wager × joined − paid ≥ 0` and the 0 ≤ custody
bound. -/
theorem ttt_draw_escrow_overdraft :
    tttDrawTripleClaim.map (fun r => (r.2, r.1.lamports, r.1.claimed)) =
      .ok (3 * MIN_WAGER, 1053200, false) ∧
    3 * MIN_WAGER > 2 * MIN_WAGER ∧ (1053200 : Nat) < 2053200 := by
  decide

end ArciumMxe
